import Mathlib

/-!
Verification development for the OpenCL compute context of
`QuantExt/qle/math/openclenvironment.cpp` (class `OpenClContext`).

The C++ class is a mutable state machine driving a build-then-run protocol
for GPU kernels.  We embed it shallowly: the member variables of
`OpenClContext` become the fields of a Lean structure, and each member
function becomes a Lean function `OpenClContext → args → OpenClContext × Except Err α`.
The first component of the result is the post-state (C++ exceptions leave
already-performed member mutations in place, so the post-state is returned
on the error path as well); the second component is the normal return value
or the thrown error.

Device-side effects (OpenCL API calls) are not observable in the claims
except through success/failure, so they are abstracted: calls that can fail
at the device level take a `DeviceOracle` of success flags, and handle
releases are recorded in a `releaseLog` field mirroring the
`releaseKernel`/`releaseProgram` calls of the source.  Floating point
payloads (the stored input values) are not referenced by any claim and are
omitted from the state.

C++ `std::vector::operator[]` performs no bounds check.  Where the source
guards an access with a `QL_REQUIRE` the embedding checks first and the
access is total; where the source performs an access that can be
out of bounds (notably `disposeCalculation`, whose `size_t` index `id - 1`
wraps for `id == 0`), the embedding uses `List.get?` and surfaces the
out-of-bounds case as `Err.undefinedBehavior`.  Incidental accesses that
the protocol keeps in bounds are modeled with `List.getD`.
-/

deriving instance DecidableEq for Except

/-- Error kinds thrown via `QL_REQUIRE` / `QL_FAIL` in the source, plus
`undefinedBehavior` for unchecked out-of-bounds vector accesses. -/
inductive Err where
  | badState
  | badId
  | badInput
  | notHealthy
  | deviceInit
  | internalError
  | kernelExists
  | outputArity
  | capabilityMismatch
  | buildFailed
  | deviceOp
  | undefinedBehavior
  deriving DecidableEq

/-- The state machine states of `OpenClContext::ComputeState`. -/
inductive ComputeState where
  | idle
  | createInput
  | createVariates
  | calc
  deriving DecidableEq

/-- The per-calculation settings (`ComputeContext::Settings`): double
precision flag, rng seed, debug flag. -/
structure Settings where
  useDoublePrecision : Bool
  rngSeed : Nat
  debug : Bool
  deriving DecidableEq

/-- The member state of `OpenClContext`.  Field names follow the C++
members.  The record vectors (`size_` .. `nOutputVars_`) are indexed by
calculation id minus one.  `program_`/`kernel_` handles are not modeled as
data; their release calls are recorded in `releaseLog`. -/
structure OpenClContext where
  healthy : Bool
  initialized : Bool
  supportsDoublePrecision : Bool
  size_ : List Nat
  disposed_ : List Bool
  hasKernel_ : List Bool
  version_ : List Nat
  inputBufferSize_ : List Nat
  nOutputVars_ : List Nat
  variatesPoolSize_ : Nat
  currentId_ : Nat
  currentState_ : ComputeState
  nVars_ : Nat
  nVariates_ : Nat
  settings_ : Settings
  inputVarOffset_ : List Nat
  inputVarIsScalar_ : List Bool
  freedVariables_ : List Nat
  outputVariables_ : List Nat
  currentSsa_ : String
  debugNumberOfOperations : Nat
  releaseLog : List String
  deriving DecidableEq

/-- Success flags for the OpenCL device API calls made during an
operation; `true` means the corresponding `cl*` call returns
`CL_SUCCESS`. -/
structure DeviceOracle where
  createBufferOk : Bool
  buildOk : Bool
  enqueueWriteOk : Bool
  setArgsOk : Bool
  enqueueKernelOk : Bool
  readOk : Bool
  deriving DecidableEq

/-- Release of the cached kernel and program of record `id` (1-based), as
done by `releaseKernel`/`releaseProgram` in the source; the embedding logs
the two release calls. -/
def releaseKernelAndProgram (ctx : OpenClContext) (id : Nat) : OpenClContext :=
  { ctx with releaseLog := ctx.releaseLog ++ ["kernel id " ++ toString id, "program id " ++ toString id] }

/-- `OpenClContext::init()`.  Only this function checks `healthy_`.  After
the retry loop the source sets `healthy_ = false` before the final
`QL_REQUIRE`, so a device failure leaves the context unhealthy.  `deviceOk`
abstracts the outcome of the `clCreateContext` retry loop, `queueOk` that
of `clCreateCommandQueue`. -/
def init (ctx : OpenClContext) (deviceOk queueOk : Bool) : OpenClContext × Except Err Unit :=
  if ctx.healthy = false then (ctx, Except.error Err.notHealthy)
  else if ctx.initialized then (ctx, Except.ok ())
  else
    let ctx := { ctx with healthy := false, debugNumberOfOperations := 0 }
    if deviceOk = false then (ctx, Except.error Err.deviceInit)
    else if queueOk = false then (ctx, Except.error Err.deviceInit)
    else ({ ctx with healthy := true, initialized := true }, Except.ok ())

/-- `OpenClContext::initiateCalculation(n, id, version, settings)`.
Checks `n > 0`; for `id == 0` allocates a new record, otherwise validates
`id`, its size and disposal flag and rebuilds on a version bump.  Resets
`nVars_` and the input descriptors unconditionally; resets the free list,
output list, variate counter and SSA text only when `newCalc` holds. -/
def initiateCalculation (ctx : OpenClContext) (n id version : Nat) (settings : Settings) :
    OpenClContext × Except Err (Nat × Bool) :=
  if n = 0 then (ctx, Except.error Err.badInput)
  else
    let ctx := { ctx with settings_ := settings }
    let branch : OpenClContext × Except Err Bool :=
      if id = 0 then
        let ctx := { ctx with
          size_ := ctx.size_ ++ [n]
          disposed_ := ctx.disposed_ ++ [false]
          hasKernel_ := ctx.hasKernel_ ++ [false]
          version_ := ctx.version_ ++ [version]
          inputBufferSize_ := ctx.inputBufferSize_ ++ [0]
          nOutputVars_ := ctx.nOutputVars_ ++ [0] }
        ({ ctx with currentId_ := ctx.hasKernel_.length }, Except.ok true)
      else
        if ctx.hasKernel_.length < id then (ctx, Except.error Err.badId)
        else if ctx.size_.getD (id - 1) 0 ≠ n then (ctx, Except.error Err.badId)
        else if ctx.disposed_.getD (id - 1) false then (ctx, Except.error Err.badId)
        else
          let (ctx, newCalc) :=
            if version ≠ ctx.version_.getD (id - 1) 0 then
              (releaseKernelAndProgram
                { ctx with
                  hasKernel_ := ctx.hasKernel_.set (id - 1) false
                  version_ := ctx.version_.set (id - 1) version } id, true)
            else (ctx, false)
          ({ ctx with currentId_ := id }, Except.ok newCalc)
    match branch with
    | (ctx, Except.error e) => (ctx, Except.error e)
    | (ctx, Except.ok newCalc) =>
      let ctx := { ctx with
        nVars_ := 0
        inputVarOffset_ := []
        inputVarIsScalar_ := [] }
      let ctx :=
        if newCalc then
          { ctx with
            freedVariables_ := []
            outputVariables_ := []
            nVariates_ := 0
            currentSsa_ := "" }
        else ctx
      let ctx := { ctx with currentState_ := ComputeState.createInput }
      (ctx, Except.ok (ctx.currentId_, newCalc))

/-- The offset the next input variable will receive: `0` if no input
exists yet, else `back() + (isScalar.back() ? 1 : n)` with
`n = size_[currentId_ - 1]`.  The same expression computes
`inputBufferSize` in `finalizeCalculation`. -/
def nextInputOffset (ctx : OpenClContext) : Nat :=
  if ctx.inputVarOffset_.isEmpty then 0
  else
    ctx.inputVarOffset_.getLastD 0 +
      (if ctx.inputVarIsScalar_.getLastD true then 1 else ctx.size_.getD (ctx.currentId_ - 1) 0)

/-- The two C++ overloads `createInputVariable(double)` (scalar) and
`createInputVariable(double*)` (vector) differ only in the stored flag and
the value payload (which no claim references); they are merged into one
function taking the `isScalar` flag. -/
def createInputVariable (ctx : OpenClContext) (isScalar : Bool) : OpenClContext × Except Err Nat :=
  if ctx.currentState_ = ComputeState.createInput then
    (({ ctx with
        inputVarOffset_ := ctx.inputVarOffset_ ++ [nextInputOffset ctx]
        inputVarIsScalar_ := ctx.inputVarIsScalar_ ++ [isScalar]
        nVars_ := ctx.nVars_ + 1 }),
      Except.ok ctx.nVars_)
  else (ctx, Except.error Err.badState)

/-- `OpenClContext::disposeCalculation(id)`.  The source reads
`disposed_[id - 1]` without any validity check on `id`; the `size_t`
index `id - 1` wraps modulo `2^64`, so `id == 0` or `id` beyond the
number of records is an out-of-bounds vector access, surfaced here as
`Err.undefinedBehavior`. -/
def disposeCalculation (ctx : OpenClContext) (id : Nat) : OpenClContext × Except Err Unit :=
  let idx := (id + (2 ^ 64 - 1)) % 2 ^ 64
  match ctx.disposed_.get? idx with
  | none => (ctx, Except.error Err.undefinedBehavior)
  | some true => (ctx, Except.error Err.badId)
  | some false =>
    (releaseKernelAndProgram { ctx with disposed_ := ctx.disposed_.set idx true } id,
      Except.ok ())

/-- One structural-recursion rendering of the fill loop of
`updateVariatesPool`: `for (cur = poolSize; cur < demand; cur += 624)`.
The `fuel` argument only bounds the iteration count so the recursion is
structural (and kernel-computable); each iteration moves `cur` up by
`624 ≥ 1`, so any `fuel ≥ demand - cur` is exact. -/
def fillLoopRun (fuel cur demand : Nat) : Nat :=
  match fuel with
  | 0 => cur
  | fuel + 1 => if cur < demand then fillLoopRun fuel (cur + 624) demand else cur

/-- End state of the fill loop of `updateVariatesPool`: the first value of
the form `cur + 624 * k` that is `≥ demand`.  Fuel `demand` suffices
because `cur` starts `≥ 0` and each iteration adds `624 ≥ 1`. -/
def fillLoopEnd (cur demand : Nat) : Nat :=
  fillLoopRun demand cur demand

/-- The `alignedSize` computation of `updateVariatesPool`:
`624 * (demand / 624 + (demand % 624 == 0 ? 0 : 1))`. -/
def alignedSize624 (demand : Nat) : Nat :=
  624 * (demand / 624 + (if demand % 624 = 0 then 0 else 1))

/-- `OpenClContext::updateVariatesPool()`.  Guards against
`nVariates_ == 0` (labelled an internal error in the source), exits early
when the pool already covers the demand `nVariates_ * size_[currentId_-1]`,
otherwise grows the pool: the fill loop advances from the old pool size in
steps of 624 and the source asserts that the end value equals
`alignedSize`; on success the pool size becomes that value.  The device
work (program build, buffer copy, twist/generate kernels) affects no field
observed by the claims and is not modeled. -/
def updateVariatesPool (ctx : OpenClContext) : OpenClContext × Except Err Unit :=
  if ctx.nVariates_ = 0 then (ctx, Except.error Err.internalError)
  else
    let demand := ctx.nVariates_ * ctx.size_.getD (ctx.currentId_ - 1) 0
    if demand ≤ ctx.variatesPoolSize_ then (ctx, Except.ok ())
    else
      let currentPoolSize := fillLoopEnd ctx.variatesPoolSize_ demand
      if currentPoolSize = alignedSize624 demand then
        ({ ctx with variatesPoolSize_ := currentPoolSize }, Except.ok ())
      else (ctx, Except.error Err.internalError)

/-- An empty `dim × steps` id matrix (`resultIds`), initialized as
`std::vector<std::vector<std::size_t>>(dim, std::vector<std::size_t>(steps))`. -/
def initMatrix (dim steps : Nat) : List (List Nat) :=
  List.replicate dim (List.replicate steps 0)

/-- Matrix store `m[i][j] := x`. -/
def setMatrix (m : List (List Nat)) (i j x : Nat) : List (List Nat) :=
  m.set i ((m.getD i []).set j x)

/-- Matrix read `m[i][j]`. -/
def getMatrix (m : List (List Nat)) (i j : Nat) : Nat :=
  (m.getD i []).getD j 0

/-- One iteration of the inner loop of `createInputVariates`:
`resultIds[i][j] = nVars_++`. -/
def variateStep (j : Nat) (acc : List (List Nat) × Nat) (i : Nat) : List (List Nat) × Nat :=
  (setMatrix acc.1 i j acc.2, acc.2 + 1)

/-- The inner loop of `createInputVariates` for one step `j`:
`for (i = 0; i < dim; ++i) resultIds[i][j] = nVars_++`. -/
def variateColumn (dim j : Nat) (acc : List (List Nat) × Nat) : List (List Nat) × Nat :=
  (List.range dim).foldl (variateStep j) acc

/-- The id-assignment loops of `createInputVariates`:
`for (j = 0; j < steps; ++j) for (i = 0; i < dim; ++i) resultIds[i][j] = nVars_++;`
returning the filled matrix and the final counter. -/
def fillVariateIds (dim steps start : Nat) : List (List Nat) × Nat :=
  (List.range steps).foldl (fun acc j => variateColumn dim j acc) (initMatrix dim steps, start)

/-- `OpenClContext::createInputVariates(dim, steps)`.  Requires state
`createInput` or `createVariates`, a current id and no cached kernel;
moves to state `createVariates`, assigns `dim * steps` fresh variable ids
in step-major order, adds `dim * steps` to `nVariates_` and then calls
`updateVariatesPool()` unconditionally. -/
def createInputVariates (ctx : OpenClContext) (dim steps : Nat) :
    OpenClContext × Except Err (List (List Nat)) :=
  if ctx.currentState_ = ComputeState.createInput ∨ ctx.currentState_ = ComputeState.createVariates then
    if ctx.currentId_ = 0 then (ctx, Except.error Err.badId)
    else if ctx.hasKernel_.getD (ctx.currentId_ - 1) false = true then
      (ctx, Except.error Err.kernelExists)
    else
      let ctx := { ctx with currentState_ := ComputeState.createVariates }
      let fill := fillVariateIds dim steps ctx.nVars_
      let ctx := { ctx with nVars_ := fill.2, nVariates_ := ctx.nVariates_ + dim * steps }
      match updateVariatesPool ctx with
      | (ctx, Except.ok ()) => (ctx, Except.ok fill.1)
      | (ctx, Except.error e) => (ctx, Except.error e)
  else (ctx, Except.error Err.badState)

/-- `OpenClContext::declareOutputVariable(id)`.  Requires a non-idle state,
a current id and no cached kernel; appends `id` to the output list and
increments `nOutputVars_[currentId_ - 1]`. -/
def declareOutputVariable (ctx : OpenClContext) (id : Nat) : OpenClContext × Except Err Unit :=
  if ctx.currentState_ = ComputeState.idle then (ctx, Except.error Err.badState)
  else if ctx.currentId_ = 0 then (ctx, Except.error Err.badId)
  else if ctx.hasKernel_.getD (ctx.currentId_ - 1) false = true then (ctx, Except.error Err.kernelExists)
  else
    ({ ctx with
        outputVariables_ := ctx.outputVariables_ ++ [id]
        nOutputVars_ := ctx.nOutputVars_.set (ctx.currentId_ - 1)
          (ctx.nOutputVars_.getD (ctx.currentId_ - 1) 0 + 1) },
      Except.ok ())

/-- The opcodes handled by the `switch` in `OpenClContext::applyOperation`
(enumeration `RandomVariableOpCode`; any other opcode hits the `QL_FAIL`
default case and is not represented here). -/
inductive OpCode where
  | None
  | Add
  | Subtract
  | Negative
  | Mult
  | Div
  | IndicatorEq
  | IndicatorGt
  | IndicatorGeq
  | Min
  | Max
  | Abs
  | Exp
  | Sqrt
  | Log
  | Pow
  deriving DecidableEq

/-- Number of `argStr` entries the switch case of an opcode reads. -/
def opArity : OpCode → Nat
  | OpCode.None => 0
  | OpCode.Negative | OpCode.Abs | OpCode.Exp | OpCode.Sqrt | OpCode.Log => 1
  | _ => 2

/-- The `<T>` type used in generated source: `double` or `float` per
`settings_.useDoublePrecision`. -/
def fpTypeString (s : Settings) : String :=
  if s.useDoublePrecision then "double" else "float"

/-- Argument resolution of `applyOperation` (the `argStr` loop): an id
below `inputVarOffset_.size()` is an input and resolves to
`input[<offset>U]` (scalar) or `input[<offset>U + i]` (vector); an id
below `inputVarOffset_.size() + nVariates_` is a variate and resolves to
`rn[<(id - nInputs) * n>U + i]`; any other id is an intermediate `v<id>`. -/
def argString (ctx : OpenClContext) (id : Nat) : String :=
  if id < ctx.inputVarOffset_.length then
    "input[" ++ toString (ctx.inputVarOffset_.getD id 0) ++ "U" ++
      (if ctx.inputVarIsScalar_.getD id true then "]" else " + i]")
  else if id < ctx.inputVarOffset_.length + ctx.nVariates_ then
    "rn[" ++ toString ((id - ctx.inputVarOffset_.length) * ctx.size_.getD (ctx.currentId_ - 1) 0) ++
      "U + i]"
  else
    "v" ++ toString id

/-- The right-hand side appended to `ssaLine` by the opcode switch.  For
`None` the switch appends nothing (no expression and no semicolon).
Reading an argument beyond `args.size()` is undefined in the C++
(unchecked vector access) and is modeled by the `getD` default. -/
def rhsString (ctx : OpenClContext) (op : OpCode) (args : List Nat) : String :=
  let a := fun i => argString ctx (args.getD i 0)
  match op with
  | OpCode.None => ""
  | OpCode.Add => a 0 ++ " + " ++ a 1 ++ ";"
  | OpCode.Subtract => a 0 ++ " - " ++ a 1 ++ ";"
  | OpCode.Negative => "-" ++ a 0 ++ ";"
  | OpCode.Mult => a 0 ++ " * " ++ a 1 ++ ";"
  | OpCode.Div => a 0 ++ " / " ++ a 1 ++ ";"
  | OpCode.IndicatorEq => "ore_indicatorEq(" ++ a 0 ++ "," ++ a 1 ++ ");"
  | OpCode.IndicatorGt => "ore_indicatorGt(" ++ a 0 ++ "," ++ a 1 ++ ");"
  | OpCode.IndicatorGeq => "ore_indicatorGeq(" ++ a 0 ++ "," ++ a 1 ++ ");"
  | OpCode.Min => "fmin(" ++ a 0 ++ "," ++ a 1 ++ ");"
  | OpCode.Max => "fmax(" ++ a 0 ++ "," ++ a 1 ++ ");"
  | OpCode.Abs => "fabs(" ++ a 0 ++ ");"
  | OpCode.Exp => "exp(" ++ a 0 ++ ");"
  | OpCode.Sqrt => "sqrt(" ++ a 0 ++ ");"
  | OpCode.Log => "log(" ++ a 0 ++ ");"
  | OpCode.Pow => "pow(" ++ a 0 ++ "," ++ a 1 ++ ");"

/-- The `ssaLine` local of `applyOperation`:
`(resultIdNeedsDeclaration ? fpType + " " : "") + "v" + resultId + " = " + rhs`. -/
def ssaLineFor (ctx : OpenClContext) (declare : Bool) (resultId : Nat) (op : OpCode)
    (args : List Nat) : String :=
  (if declare then fpTypeString ctx.settings_ ++ " " else "") ++
    "v" ++ toString resultId ++ " = " ++ rhsString ctx op args

/-- `OpenClContext::applyOperation(randomVariableOpCode, args)`.  Moves to
state `calc` (before the remaining checks, as in the source), requires a
current id and no cached kernel, allocates the result id from the back of
the free list when non-empty (recycled ids need no type declaration) and
from `nVars_++` otherwise, and appends the single generated line
`"  " ++ ssaLine ++ "\n"` to `currentSsa_`.  The source computes the
argument strings after the free-list pop; the pop mutates only
`nVars_`/`freedVariables_`, which argument resolution never reads, so the
line is built here from the pre-pop context. -/
def applyOperation (ctx0 : OpenClContext) (op : OpCode) (args : List Nat) :
    OpenClContext × Except Err Nat :=
  if ctx0.currentState_ = ComputeState.createInput ∨ ctx0.currentState_ = ComputeState.createVariates ∨
      ctx0.currentState_ = ComputeState.calc then
    let ctx := { ctx0 with currentState_ := ComputeState.calc }
    if ctx.currentId_ = 0 then (ctx, Except.error Err.badId)
    else if ctx.hasKernel_.getD (ctx.currentId_ - 1) false = true then
      (ctx, Except.error Err.kernelExists)
    else
      let pop : Nat × Bool :=
        match ctx.freedVariables_.getLast? with
        | some x => (x, false)
        | none => (ctx.nVars_, true)
      let ctx2 :=
        if pop.2 then { ctx with nVars_ := ctx.nVars_ + 1 }
        else { ctx with freedVariables_ := ctx.freedVariables_.dropLast }
      let ctx3 := { ctx2 with
        currentSsa_ := ctx2.currentSsa_ ++ "  " ++ ssaLineFor ctx pop.2 pop.1 op args ++ "\n" }
      let ctx4 :=
        if ctx3.settings_.debug then
          { ctx3 with debugNumberOfOperations :=
              ctx3.debugNumberOfOperations + ctx3.size_.getD (ctx3.currentId_ - 1) 0 }
        else ctx3
      (ctx4, Except.ok pop.1)
  else (ctx0, Except.error Err.badState)

/-- `OpenClContext::freeVariable(id)`.  Requires state `calc`, a current id
and no cached kernel; input and variate ids are not freed, other ids are
pushed onto the free list. -/
def freeVariable (ctx : OpenClContext) (id : Nat) : OpenClContext × Except Err Unit :=
  if ctx.currentState_ = ComputeState.calc then
    if ctx.currentId_ = 0 then (ctx, Except.error Err.badId)
    else if ctx.hasKernel_.getD (ctx.currentId_ - 1) false = true then
      (ctx, Except.error Err.kernelExists)
    else if id < ctx.inputVarOffset_.length + ctx.nVariates_ then (ctx, Except.ok ())
    else ({ ctx with freedVariables_ := ctx.freedVariables_ ++ [id] }, Except.ok ())
  else (ctx, Except.error Err.badState)

/-- The body of `OpenClContext::finalizeCalculation` without its
`exitGuard`: the sequence of checks and device steps, each of which can
throw.  Kernel source assembly is not modeled (no claim observes the
kernel text); the cache bookkeeping (`hasKernel_`, `inputBufferSize_`) is.
Device call outcomes come from the oracle. -/
def finalizeBody (dev : DeviceOracle) (ctx : OpenClContext) (outputCount : Nat) :
    OpenClContext × Except Err Unit :=
  if ctx.currentId_ = 0 then (ctx, Except.error Err.badId)
  else if outputCount ≠ ctx.nOutputVars_.getD (ctx.currentId_ - 1) 0 then
    (ctx, Except.error Err.outputArity)
  else if ctx.settings_.useDoublePrecision = true ∧ ctx.supportsDoublePrecision = false then
    (ctx, Except.error Err.capabilityMismatch)
  else
    let inputBufferSize := nextInputOffset ctx
    let outputBufferSize := outputCount * ctx.size_.getD (ctx.currentId_ - 1) 0
    if (0 < inputBufferSize ∨ 0 < outputBufferSize) ∧ dev.createBufferOk = false then
      (ctx, Except.error Err.deviceOp)
    else
      let build : OpenClContext × Except Err Unit :=
        if ctx.hasKernel_.getD (ctx.currentId_ - 1) false = false then
          if dev.buildOk = false then (ctx, Except.error Err.buildFailed)
          else
            ({ ctx with
                hasKernel_ := ctx.hasKernel_.set (ctx.currentId_ - 1) true
                inputBufferSize_ := ctx.inputBufferSize_.set (ctx.currentId_ - 1) inputBufferSize },
              Except.ok ())
        else if inputBufferSize ≠ ctx.inputBufferSize_.getD (ctx.currentId_ - 1) 0 then
          (ctx, Except.error Err.badInput)
        else (ctx, Except.ok ())
      match build with
      | (ctx, Except.error e) => (ctx, Except.error e)
      | (ctx, Except.ok ()) =>
        if 0 < inputBufferSize ∧ dev.enqueueWriteOk = false then (ctx, Except.error Err.deviceOp)
        else if dev.setArgsOk = false then (ctx, Except.error Err.deviceOp)
        else if dev.enqueueKernelOk = false then (ctx, Except.error Err.deviceOp)
        else if 0 < outputBufferSize ∧ dev.readOk = false then (ctx, Except.error Err.deviceOp)
        else (ctx, Except.ok ())

/-- `OpenClContext::finalizeCalculation(output)`.  The `exitGuard` local
struct stores a pointer to `currentState_` and its destructor sets the
state to `idle`; the destructor runs on every exit path of the function,
normal return and exception unwind alike, so the post-state of every call
is the body's post-state with `currentState_` forced to `idle`. -/
def finalizeCalculation (dev : DeviceOracle) (ctx : OpenClContext) (outputCount : Nat) :
    OpenClContext × Except Err Unit :=
  let r := finalizeBody dev ctx outputCount
  ({ r.1 with currentState_ := ComputeState.idle }, r.2)

/-- Decidable rendering of the input-offset invariant over the paired list
`inputVarOffset_.zip inputVarIsScalar_`: each adjacent pair of descriptors
satisfies `offset[k+1] = offset[k] + (isScalar[k] ? 1 : n)`. -/
def offsetChainOk (n : Nat) : List (Nat × Bool) → Bool
  | (o1, s1) :: (o2, s2) :: rest =>
      (o2 == o1 + (if s1 then 1 else n)) && offsetChainOk n ((o2, s2) :: rest)
  | _ => true

/-- A sequence of `createInputVariable` calls (scalar for `true`, vector
for `false`), keeping only the evolving context. -/
def runInputs (ctx : OpenClContext) (flags : List Bool) : OpenClContext :=
  flags.foldl (fun c b => (createInputVariable c b).1) ctx

/-- Default `ComputeContext::Settings` (single precision, seed 42). -/
def defaultSettings : Settings :=
  { useDoublePrecision := false, rngSeed := 42, debug := false }

/-- A fresh, healthy, initialized context with no calculation records, as
after a successful `init()`. -/
def baseCtx : OpenClContext :=
  { healthy := true
    initialized := true
    supportsDoublePrecision := false
    size_ := []
    disposed_ := []
    hasKernel_ := []
    version_ := []
    inputBufferSize_ := []
    nOutputVars_ := []
    variatesPoolSize_ := 0
    currentId_ := 0
    currentState_ := ComputeState.idle
    nVars_ := 0
    nVariates_ := 0
    settings_ := defaultSettings
    inputVarOffset_ := []
    inputVarIsScalar_ := []
    freedVariables_ := []
    outputVariables_ := []
    currentSsa_ := ""
    debugNumberOfOperations := 0
    releaseLog := [] }

/-- A device oracle on which every device call succeeds. -/
def devOk : DeviceOracle :=
  { createBufferOk := true, buildOk := true, enqueueWriteOk := true,
    setArgsOk := true, enqueueKernelOk := true, readOk := true }

/-- Context mid-calculation (record 1, batch size 4), no inputs yet. -/
def c1ctx : OpenClContext :=
  { baseCtx with
    currentState_ := ComputeState.createInput
    currentId_ := 1
    size_ := [4]
    disposed_ := [false]
    hasKernel_ := [false]
    version_ := [0]
    inputBufferSize_ := [0]
    nOutputVars_ := [0] }

/-- Context with two inputs (scalar at offset 0, vector at offset 1), one
variate (id 2) and one intermediate (id 3), so `nVars_ = 4`. -/
def c1wctx : OpenClContext :=
  { c1ctx with
    inputVarOffset_ := [0, 1]
    inputVarIsScalar_ := [true, false]
    nVariates_ := 1
    nVars_ := 4 }

/-- Context for a pool update: record 1 of batch size 5, one variate
requested, empty pool. -/
def c2wctx : OpenClContext :=
  { baseCtx with currentId_ := 1, size_ := [5], nVariates_ := 1 }

/-- Context in state `calc` whose record 1 already has a cached kernel. -/
def c6ctx : OpenClContext :=
  { baseCtx with
    currentState_ := ComputeState.calc
    currentId_ := 1
    size_ := [4]
    disposed_ := [false]
    hasKernel_ := [true]
    version_ := [0]
    inputBufferSize_ := [0]
    nOutputVars_ := [0] }

/-- Context in state `calc`, record 1 without a cached kernel, one output
already declared. -/
def c6wctx : OpenClContext :=
  { baseCtx with
    currentState_ := ComputeState.calc
    currentId_ := 1
    size_ := [4]
    disposed_ := [false]
    hasKernel_ := [false]
    version_ := [0]
    inputBufferSize_ := [0]
    nOutputVars_ := [1]
    outputVariables_ := [3] }

/-- Idle context holding a cached kernel for record 1 (version 0) together
with leftover per-evaluation scratch from the evaluation that built it. -/
def c7ctx : OpenClContext :=
  { baseCtx with
    size_ := [4]
    disposed_ := [false]
    hasKernel_ := [true]
    version_ := [0]
    inputBufferSize_ := [7]
    nOutputVars_ := [1]
    nVars_ := 11
    nVariates_ := 5
    freedVariables_ := [7]
    outputVariables_ := [3]
    currentSsa_ := "  v7 = v3 + v3;\n" }

/-- An unhealthy context (as left behind by a failed `init()`). -/
def c8ctx : OpenClContext :=
  { baseCtx with healthy := false }

/-- Context with one live record (id 1) to dispose. -/
def c9ctx : OpenClContext :=
  { baseCtx with
    size_ := [4]
    disposed_ := [false]
    hasKernel_ := [true]
    version_ := [0]
    inputBufferSize_ := [0]
    nOutputVars_ := [0] }

/-- Context at the start of a calculation on record 1 with batch size 1. -/
def c10ctx : OpenClContext :=
  { baseCtx with
    currentState_ := ComputeState.createInput
    currentId_ := 1
    size_ := [1]
    disposed_ := [false]
    hasKernel_ := [false]
    version_ := [0]
    inputBufferSize_ := [0]
    nOutputVars_ := [0] }

/-- C3: every call to `finalizeCalculation` — over every context, every
output arity and every combination of device-call outcomes, hence on the
normal return and on each thrown failure (bad id, output-arity mismatch,
capability mismatch, buffer creation failure, kernel build failure,
enqueue or read-back failure) — leaves the state machine in `idle`: the
`exitGuard` destructor forces `currentState_ = idle` on every exit path of
the body. -/
theorem finalizeCalculation_always_idle (dev : DeviceOracle) (ctx : OpenClContext)
    (outputCount : Nat) :
    ((finalizeCalculation dev ctx outputCount).1).currentState_ = ComputeState.idle := rfl

/-- C9: evaluation of `disposeCalculation`.  Disposing the live record 1
succeeds, marks it disposed and releases its kernel and program; a second
disposal of the same id fails (the `QL_REQUIRE(!disposed_[id-1])`, the
BadId of the spec); but an unknown id — 0, whose `size_t` index `id - 1`
wraps to `2^64 - 1`, or an id beyond the record count — is an unchecked
out-of-bounds read of `disposed_`, not a BadId failure. -/
theorem disposeCalculation_eval :
    (disposeCalculation c9ctx 1).2 = Except.ok () ∧
    ((disposeCalculation c9ctx 1).1).disposed_ = [true] ∧
    ((disposeCalculation c9ctx 1).1).releaseLog = ["kernel id 1", "program id 1"] ∧
    (disposeCalculation ((disposeCalculation c9ctx 1).1) 1).2 = Except.error Err.badId ∧
    (disposeCalculation c9ctx 0).2 = Except.error Err.undefinedBehavior ∧
    (disposeCalculation c9ctx 2).2 = Except.error Err.undefinedBehavior := by
  decide

/-- C5: `createInputVariates(0, 0)` as the first variate request of a
calculation (so `nVariates_ = 0`) does not return normally: the function
calls `updateVariatesPool()` unconditionally, and its guard
`QL_REQUIRE(nVariates_ > 0, "internal error, got nVariates_ == 0")`
throws.  The pool itself is indeed untouched (`variatesPoolSize_` stays
0), but the call fails instead of returning the empty id matrix. -/
theorem createInputVariates_zero_zero_fails :
    (createInputVariates c1ctx 0 0).2 = Except.error Err.internalError ∧
    ((createInputVariates c1ctx 0 0).1).variatesPoolSize_ = 0 ∧
    ((createInputVariates c1ctx 0 0).1).nVariates_ = 0 := by
  decide

/-- C6 counterexample: in state `calc` of a repeat evaluation whose kernel
is already cached (`hasKernel_[currentId_-1]`), `declareOutputVariable`
does not succeed: it fails on the
`QL_REQUIRE(!hasKernel_[currentId_ - 1])` guard, with the context
unchanged, refuting the claim that the call succeeds in every non-idle
state. -/
theorem declareOutputVariable_cached_kernel_fails :
    declareOutputVariable c6ctx 5 = (c6ctx, Except.error Err.kernelExists) := by
  decide

/-- C7 counterexample: a repeat (non-fresh) `initiateCalculation` on an
existing record with the stored version reports `fresh = false` and leaves
the free list, the output list and the variate counter (and the SSA text)
untouched, refuting the claim that these are reset on every call. -/
theorem initiateCalculation_repeat_keeps_scratch :
    (initiateCalculation c7ctx 4 1 0 defaultSettings).2 = Except.ok (1, false) ∧
    ((initiateCalculation c7ctx 4 1 0 defaultSettings).1).freedVariables_ = [7] ∧
    ((initiateCalculation c7ctx 4 1 0 defaultSettings).1).outputVariables_ = [3] ∧
    ((initiateCalculation c7ctx 4 1 0 defaultSettings).1).nVariates_ = 5 ∧
    ((initiateCalculation c7ctx 4 1 0 defaultSettings).1).currentSsa_ = "  v7 = v3 + v3;\n" := by
  decide

/-- C8 counterexample: `initiateCalculation` performs no health check, so
it succeeds on an unhealthy context (one left behind by a failed
`init()`), refuting the claim that every operation on an unhealthy
context fails. -/
theorem unhealthy_initiateCalculation_proceeds :
    (initiateCalculation c8ctx 1 0 0 defaultSettings).2 = Except.ok (1, true) := by
  decide

/-- Setting the health flag of an already-unhealthy context back to
`false` after a round trip through `true` restores the original
context. -/
theorem reset_healthy_eq (c : OpenClContext) (h : c.healthy = false) :
    { { c with healthy := true } with healthy := false } = c := by
  cases c
  simp_all

/-- `initiateCalculation` never reads `healthy_`: its outcome and its
state effects on a context with any health flag are those on the same
context, with the flag simply carried through. -/
theorem initiateCalculation_no_health (ctx : OpenClContext) (b : Bool) (n id version : Nat)
    (s : Settings) :
    initiateCalculation { ctx with healthy := b } n id version s =
      ({ (initiateCalculation ctx n id version s).1 with healthy := b },
        (initiateCalculation ctx n id version s).2) := by
  by_cases hn : n = 0
  · simp [initiateCalculation, hn]
  · by_cases hid : id = 0
    · simp [initiateCalculation, hn, hid]
    · by_cases hlen : ctx.hasKernel_.length < id
      · simp [initiateCalculation, hn, hid, hlen]
      · by_cases hsz : ctx.size_[id - 1]?.getD 0 = n
        · by_cases hdisp : ctx.disposed_[id - 1]?.getD false = true
          · simp [initiateCalculation, hn, hid, hlen, hsz, hdisp]
          · by_cases hv : version = ctx.version_[id - 1]?.getD 0
            · simp [initiateCalculation, hn, hid, hlen, hsz, hdisp, hv]
            · simp [initiateCalculation, releaseKernelAndProgram, hn, hid, hlen, hsz, hdisp, hv]
        · simp [initiateCalculation, hn, hid, hlen, hsz]

/-- `createInputVariable` never reads `healthy_`. -/
theorem createInputVariable_no_health (ctx : OpenClContext) (b isScalar : Bool) :
    createInputVariable { ctx with healthy := b } isScalar =
      ({ (createInputVariable ctx isScalar).1 with healthy := b },
        (createInputVariable ctx isScalar).2) := by
  by_cases hs : ctx.currentState_ = ComputeState.createInput
  · simp [createInputVariable, nextInputOffset, hs]
  · simp [createInputVariable, hs]

/-- Argument resolution reads neither the health flag nor the
state-machine field. -/
theorem rhsString_set_healthy_state (c : OpenClContext) (b : Bool) (s : ComputeState)
    (op : OpCode) (args : List Nat) :
    rhsString { c with healthy := b, currentState_ := s } op args = rhsString c op args := by
  cases op <;> rfl

/-- The generated SSA line reads neither the health flag nor the
state-machine field of the context it is built from. -/
theorem ssaLineFor_set_healthy_state (c : OpenClContext) (b : Bool) (s : ComputeState)
    (d : Bool) (r : Nat) (op : OpCode) (args : List Nat) :
    ssaLineFor { c with healthy := b, currentState_ := s } d r op args =
      ssaLineFor c d r op args := by
  unfold ssaLineFor
  rw [rhsString_set_healthy_state]

/-- `applyOperation` never reads `healthy_`. -/
theorem applyOperation_no_health (ctx : OpenClContext) (b : Bool) (op : OpCode)
    (args : List Nat) :
    applyOperation { ctx with healthy := b } op args =
      ({ (applyOperation ctx op args).1 with healthy := b },
        (applyOperation ctx op args).2) := by
  by_cases hst : ctx.currentState_ = ComputeState.createInput ∨
      ctx.currentState_ = ComputeState.createVariates ∨ ctx.currentState_ = ComputeState.calc
  · by_cases hid : ctx.currentId_ = 0
    · rcases hst with h1 | h1 | h1 <;> simp [applyOperation, h1, hid]
    · by_cases hk : ctx.hasKernel_[ctx.currentId_ - 1]?.getD false = true
      · rcases hst with h1 | h1 | h1 <;> simp [applyOperation, h1, hid, hk]
      · rcases hfree : ctx.freedVariables_.getLast? with _ | x <;>
          by_cases hdbg : ctx.settings_.debug = true <;>
          rcases hst with h1 | h1 | h1 <;>
          simp [applyOperation, h1, hid, hk, hfree, hdbg, ssaLineFor_set_healthy_state]
  · simp [applyOperation, hst]

/-- `createInputVariates` (including the `updateVariatesPool` call it
makes) never reads `healthy_`. -/
theorem createInputVariates_no_health (ctx : OpenClContext) (b : Bool) (dim steps : Nat) :
    createInputVariates { ctx with healthy := b } dim steps =
      ({ (createInputVariates ctx dim steps).1 with healthy := b },
        (createInputVariates ctx dim steps).2) := by
  by_cases hst : ctx.currentState_ = ComputeState.createInput ∨
      ctx.currentState_ = ComputeState.createVariates
  · by_cases hid : ctx.currentId_ = 0
    · rcases hst with h1 | h1 <;> simp [createInputVariates, h1, hid]
    · by_cases hk : ctx.hasKernel_[ctx.currentId_ - 1]?.getD false = true
      · rcases hst with h1 | h1 <;> simp [createInputVariates, h1, hid, hk]
      · by_cases hz : ctx.nVariates_ + dim * steps = 0
        · rcases hst with h1 | h1 <;>
            simp [createInputVariates, updateVariatesPool, h1, hid, hk, hz]
        · by_cases hcov : (ctx.nVariates_ + dim * steps) *
              ctx.size_[ctx.currentId_ - 1]?.getD 0 ≤ ctx.variatesPoolSize_
          · rcases hst with h1 | h1 <;>
              simp [createInputVariates, updateVariatesPool, h1, hid, hk, hz, hcov]
          · by_cases hfill : fillLoopEnd ctx.variatesPoolSize_
                ((ctx.nVariates_ + dim * steps) * ctx.size_[ctx.currentId_ - 1]?.getD 0) =
                alignedSize624
                  ((ctx.nVariates_ + dim * steps) * ctx.size_[ctx.currentId_ - 1]?.getD 0)
            · rcases hst with h1 | h1 <;>
                simp [createInputVariates, updateVariatesPool, h1, hid, hk, hz, hcov, hfill]
            · rcases hst with h1 | h1 <;>
                simp [createInputVariates, updateVariatesPool, h1, hid, hk, hz, hcov, hfill]
  · simp [createInputVariates, hst]

/-- `nextInputOffset` does not read the health flag. -/
theorem nextInputOffset_set_healthy (c : OpenClContext) (b : Bool) :
    nextInputOffset { c with healthy := b } = nextInputOffset c := rfl

/-- `finalizeCalculation` never reads `healthy_`: every check and device
step of its body, and the `exitGuard`, behave identically on a context
with any health flag. -/
theorem finalizeCalculation_no_health (dev : DeviceOracle) (ctx : OpenClContext)
    (outputCount : Nat) (b : Bool) :
    finalizeCalculation dev { ctx with healthy := b } outputCount =
      ({ (finalizeCalculation dev ctx outputCount).1 with healthy := b },
        (finalizeCalculation dev ctx outputCount).2) := by
  by_cases hid : ctx.currentId_ = 0
  · simp [finalizeCalculation, finalizeBody, hid]
  · by_cases har : outputCount = ctx.nOutputVars_[ctx.currentId_ - 1]?.getD 0
    · by_cases hcap : ctx.settings_.useDoublePrecision = true ∧ ctx.supportsDoublePrecision = false
      · simp [finalizeCalculation, finalizeBody, hid, har, hcap]
      · by_cases hbuf : (0 < nextInputOffset ctx ∨
            0 < ctx.nOutputVars_[ctx.currentId_ - 1]?.getD 0 ∧
              0 < ctx.size_[ctx.currentId_ - 1]?.getD 0) ∧ dev.createBufferOk = false
        · simp [finalizeCalculation, finalizeBody, hid, har, hcap, hbuf,
            nextInputOffset_set_healthy]
        · by_cases hk : ctx.hasKernel_[ctx.currentId_ - 1]?.getD false = false
          · by_cases hbuild : dev.buildOk = false
            · simp [finalizeCalculation, finalizeBody, hid, har, hcap, hbuf, hk, hbuild,
                nextInputOffset_set_healthy]
            · by_cases hwr : 0 < nextInputOffset ctx ∧ dev.enqueueWriteOk = false
              · have hcb : dev.createBufferOk = true := by
                  cases hcb0 : dev.createBufferOk
                  · exact absurd ⟨Or.inl hwr.1, hcb0⟩ hbuf
                  · rfl
                simp [finalizeCalculation, finalizeBody, hid, har, hcap, hbuf, hk, hbuild, hwr,
                  hcb, nextInputOffset_set_healthy]
              · by_cases hsa : dev.setArgsOk = false
                · simp [finalizeCalculation, finalizeBody, hid, har, hcap, hbuf, hk, hbuild,
                    hwr, hsa, nextInputOffset_set_healthy]
                · by_cases hek : dev.enqueueKernelOk = false
                  · simp [finalizeCalculation, finalizeBody, hid, har, hcap, hbuf, hk, hbuild,
                      hwr, hsa, hek, nextInputOffset_set_healthy]
                  · by_cases hrd : (0 < ctx.nOutputVars_[ctx.currentId_ - 1]?.getD 0 ∧
                        0 < ctx.size_[ctx.currentId_ - 1]?.getD 0) ∧ dev.readOk = false
                    · have hcb : dev.createBufferOk = true := by
                        cases hcb0 : dev.createBufferOk
                        · exact absurd ⟨Or.inr hrd.1, hcb0⟩ hbuf
                        · rfl
                      simp [finalizeCalculation, finalizeBody, hid, har, hcap, hbuf, hk,
                        hbuild, hwr, hsa, hek, hrd, hcb, nextInputOffset_set_healthy]
                    · simp [finalizeCalculation, finalizeBody, hid, har, hcap, hbuf, hk,
                        hbuild, hwr, hsa, hek, hrd, nextInputOffset_set_healthy]
          · by_cases hib : nextInputOffset ctx = ctx.inputBufferSize_[ctx.currentId_ - 1]?.getD 0
            case neg =>
              simp [finalizeCalculation, finalizeBody, hid, har, hcap, hbuf, hk, hib,
                nextInputOffset_set_healthy]
            case pos =>
              by_cases hwr : 0 < nextInputOffset ctx ∧ dev.enqueueWriteOk = false
              · have hcb : dev.createBufferOk = true := by
                  cases hcb0 : dev.createBufferOk
                  · exact absurd ⟨Or.inl hwr.1, hcb0⟩ hbuf
                  · rfl
                have hwr2 : 0 < ctx.inputBufferSize_[ctx.currentId_ - 1]?.getD 0 ∧
                    dev.enqueueWriteOk = false := ⟨by rw [← hib]; exact hwr.1, hwr.2⟩
                simp [finalizeCalculation, finalizeBody, hid, har, hcap, hbuf, hk, hib, hwr,
                  hwr2, hcb, nextInputOffset_set_healthy]
              · by_cases hsa : dev.setArgsOk = false
                · simp [finalizeCalculation, finalizeBody, hid, har, hcap, hbuf, hk, hib,
                    hwr, hsa, nextInputOffset_set_healthy]
                · by_cases hek : dev.enqueueKernelOk = false
                  · simp [finalizeCalculation, finalizeBody, hid, har, hcap, hbuf, hk, hib,
                      hwr, hsa, hek, nextInputOffset_set_healthy]
                  · by_cases hrd : (0 < ctx.nOutputVars_[ctx.currentId_ - 1]?.getD 0 ∧
                        0 < ctx.size_[ctx.currentId_ - 1]?.getD 0) ∧ dev.readOk = false
                    · have hcb : dev.createBufferOk = true := by
                        cases hcb0 : dev.createBufferOk
                        · exact absurd ⟨Or.inr hrd.1, hcb0⟩ hbuf
                        · rfl
                      simp [finalizeCalculation, finalizeBody, hid, har, hcap, hbuf, hk, hib,
                        hwr, hsa, hek, hrd, hcb, nextInputOffset_set_healthy]
                    · have hbuf2 : ¬((0 < ctx.inputBufferSize_[ctx.currentId_ - 1]?.getD 0 ∨
                          0 < ctx.nOutputVars_[ctx.currentId_ - 1]?.getD 0 ∧
                            0 < ctx.size_[ctx.currentId_ - 1]?.getD 0) ∧
                          dev.createBufferOk = false) := by
                        rw [← hib]
                        exact hbuf
                      have hwr2 : ¬(0 < ctx.inputBufferSize_[ctx.currentId_ - 1]?.getD 0 ∧
                          dev.enqueueWriteOk = false) := by
                        rw [← hib]
                        exact hwr
                      simp [finalizeCalculation, finalizeBody, hid, har, hcap, hbuf, hbuf2, hk,
                        hib, hwr, hwr2, hsa, hek, hrd, nextInputOffset_set_healthy]
    · simp [finalizeCalculation, finalizeBody, hid, har]

/-- C8 amended: once a context is marked unhealthy (after a failed init),
only `init()` rejects it (the `QL_REQUIRE(healthy_, ...)` guard, with the
context unchanged); each of the other operations — `initiateCalculation`,
`createInputVariable`, `createInputVariates`, `applyOperation` and
`finalizeCalculation` — performs no health check: running it on the
unhealthy context has exactly the outcome and the state effects of
running it on the same context marked healthy, with the health flag
itself merely carried through; in particular a fresh-id
`initiateCalculation` proceeds and succeeds subject only to its own
`n > 0` check. -/
theorem unhealthy_rejects_only_init (ctx : OpenClContext) (h : ctx.healthy = false) :
    (∀ deviceOk queueOk : Bool,
      init ctx deviceOk queueOk = (ctx, Except.error Err.notHealthy)) ∧
    (∀ n version : Nat, ∀ s : Settings, n ≠ 0 →
      (initiateCalculation ctx n 0 version s).2 =
        Except.ok (ctx.hasKernel_.length + 1, true)) ∧
    (∀ n id version : Nat, ∀ s : Settings,
      initiateCalculation ctx n id version s =
        ({ (initiateCalculation { ctx with healthy := true } n id version s).1 with
            healthy := false },
          (initiateCalculation { ctx with healthy := true } n id version s).2)) ∧
    (∀ isScalar : Bool,
      createInputVariable ctx isScalar =
        ({ (createInputVariable { ctx with healthy := true } isScalar).1 with
            healthy := false },
          (createInputVariable { ctx with healthy := true } isScalar).2)) ∧
    (∀ dim steps : Nat,
      createInputVariates ctx dim steps =
        ({ (createInputVariates { ctx with healthy := true } dim steps).1 with
            healthy := false },
          (createInputVariates { ctx with healthy := true } dim steps).2)) ∧
    (∀ op : OpCode, ∀ args : List Nat,
      applyOperation ctx op args =
        ({ (applyOperation { ctx with healthy := true } op args).1 with healthy := false },
          (applyOperation { ctx with healthy := true } op args).2)) ∧
    (∀ dev : DeviceOracle, ∀ outputCount : Nat,
      finalizeCalculation dev ctx outputCount =
        ({ (finalizeCalculation dev { ctx with healthy := true } outputCount).1 with
            healthy := false },
          (finalizeCalculation dev { ctx with healthy := true } outputCount).2)) := by
  refine ⟨?_, ?_, ?_, ?_, ?_, ?_, ?_⟩
  · intro deviceOk queueOk
    simp [init, h]
  · intro n version s hn
    simp [initiateCalculation, hn]
  · intro n id version s
    have e := initiateCalculation_no_health { ctx with healthy := true } false n id version s
    rw [reset_healthy_eq ctx h] at e
    exact e
  · intro isScalar
    have e := createInputVariable_no_health { ctx with healthy := true } false isScalar
    rw [reset_healthy_eq ctx h] at e
    exact e
  · intro dim steps
    have e := createInputVariates_no_health { ctx with healthy := true } false dim steps
    rw [reset_healthy_eq ctx h] at e
    exact e
  · intro op args
    have e := applyOperation_no_health { ctx with healthy := true } false op args
    rw [reset_healthy_eq ctx h] at e
    exact e
  · intro dev outputCount
    have e := finalizeCalculation_no_health dev { ctx with healthy := true } outputCount false
    rw [reset_healthy_eq ctx h] at e
    exact e

/-- C8 witness: the amended theorem applied to the concrete unhealthy
context `c8ctx` — `init` is rejected, a fresh-id `initiateCalculation`
succeeds, and `createInputVariable` and `finalizeCalculation` return the
same outcome as on the healthy copy of the context. -/
theorem unhealthy_rejects_only_init_witness :
    init c8ctx true true = (c8ctx, Except.error Err.notHealthy) ∧
    (initiateCalculation c8ctx 1 0 0 defaultSettings).2 = Except.ok (1, true) ∧
    (createInputVariable c8ctx true).2 =
      (createInputVariable { c8ctx with healthy := true } true).2 ∧
    (finalizeCalculation devOk c8ctx 0).2 =
      (finalizeCalculation devOk { c8ctx with healthy := true } 0).2 := by
  have h := unhealthy_rejects_only_init c8ctx rfl
  refine ⟨h.1 true true, h.2.1 1 0 defaultSettings (by decide), ?_, ?_⟩
  · rw [h.2.2.2.1 true]
  · rw [h.2.2.2.2.2.2 devOk 0]

/-- C6 amended: in every non-idle state with a current id set and no
cached kernel for the current record, `declareOutputVariable(id)` succeeds
for every id, appends `id` to the output list, increments the record's
output count, and leaves the state (and every other field) unchanged. -/
theorem declareOutputVariable_appends (ctx : OpenClContext) (id : Nat)
    (hstate : ctx.currentState_ ≠ ComputeState.idle)
    (hid : ctx.currentId_ ≠ 0)
    (hk : ctx.hasKernel_.getD (ctx.currentId_ - 1) false = false) :
    declareOutputVariable ctx id =
      ({ ctx with
          outputVariables_ := ctx.outputVariables_ ++ [id]
          nOutputVars_ := ctx.nOutputVars_.set (ctx.currentId_ - 1)
            (ctx.nOutputVars_.getD (ctx.currentId_ - 1) 0 + 1) },
        Except.ok ()) ∧
    ((declareOutputVariable ctx id).1).currentState_ = ctx.currentState_ := by
  unfold declareOutputVariable
  rw [if_neg hstate, if_neg hid, if_neg (by rw [hk]; decide)]
  exact ⟨rfl, rfl⟩

/-- C6 witness: the amended theorem applied to the concrete context
`c6wctx` (state `calc`, one output already declared). -/
theorem declareOutputVariable_appends_witness :
    (declareOutputVariable c6wctx 9).2 = Except.ok () ∧
    ((declareOutputVariable c6wctx 9).1).outputVariables_ = [3, 9] ∧
    ((declareOutputVariable c6wctx 9).1).nOutputVars_ = [2] ∧
    ((declareOutputVariable c6wctx 9).1).currentState_ = ComputeState.calc := by
  have h := declareOutputVariable_appends c6wctx 9 (by decide) (by decide) (by decide)
  rw [h.1]
  exact ⟨rfl, by decide, by decide, by decide⟩

/-- C7 amended: every successful `initiateCalculation` resets `nVars_` and
the input descriptors unconditionally and sets state `createInput`; the
free list, the output list, the variate counter and the SSA text are reset
exactly when the call reports `fresh = true`, and are all preserved on a
non-fresh repeat call. -/
theorem initiateCalculation_resets (ctx : OpenClContext) (n id version : Nat) (s : Settings)
    (ctx' : OpenClContext) (r : Nat × Bool)
    (h : initiateCalculation ctx n id version s = (ctx', Except.ok r)) :
    ctx'.nVars_ = 0 ∧ ctx'.inputVarOffset_ = [] ∧ ctx'.inputVarIsScalar_ = [] ∧
    ctx'.currentState_ = ComputeState.createInput ∧
    (r.2 = true → ctx'.freedVariables_ = [] ∧ ctx'.outputVariables_ = [] ∧
      ctx'.nVariates_ = 0 ∧ ctx'.currentSsa_ = "") ∧
    (r.2 = false → ctx'.freedVariables_ = ctx.freedVariables_ ∧
      ctx'.outputVariables_ = ctx.outputVariables_ ∧
      ctx'.nVariates_ = ctx.nVariates_ ∧ ctx'.currentSsa_ = ctx.currentSsa_) := by
  by_cases hn : n = 0
  · simp [initiateCalculation, hn] at h
  · by_cases hid : id = 0
    · simp [initiateCalculation, hn, hid] at h
      obtain ⟨h1, h2⟩ := h
      subst h1
      subst h2
      simp
    · by_cases hlen : ctx.hasKernel_.length < id
      · simp [initiateCalculation, hn, hid, hlen] at h
      · by_cases hsz : ctx.size_[id - 1]?.getD 0 = n
        · by_cases hdisp : ctx.disposed_[id - 1]?.getD false = true
          · simp [initiateCalculation, hn, hid, hlen, hsz, hdisp] at h
          · by_cases hv : version = ctx.version_[id - 1]?.getD 0
            · simp [initiateCalculation, hn, hid, hlen, hsz, hdisp, hv] at h
              obtain ⟨h1, h2⟩ := h
              subst h1
              subst h2
              simp
            · simp [initiateCalculation, releaseKernelAndProgram, hn, hid, hlen, hsz, hdisp, hv] at h
              obtain ⟨h1, h2⟩ := h
              subst h1
              subst h2
              simp
        · simp [initiateCalculation, hn, hid, hlen, hsz] at h

/-- C7 witness: the amended theorem applied to a concrete non-fresh repeat
call on `c7ctx`, whose scratch is preserved. -/
theorem initiateCalculation_resets_witness :
    ((initiateCalculation c7ctx 4 1 0 defaultSettings).1).nVars_ = 0 ∧
    ((initiateCalculation c7ctx 4 1 0 defaultSettings).1).inputVarOffset_ = [] ∧
    ((initiateCalculation c7ctx 4 1 0 defaultSettings).1).currentState_ = ComputeState.createInput ∧
    ((initiateCalculation c7ctx 4 1 0 defaultSettings).1).freedVariables_ = c7ctx.freedVariables_ := by
  have h := initiateCalculation_resets c7ctx 4 1 0 defaultSettings
    ((initiateCalculation c7ctx 4 1 0 defaultSettings).1) (1, false) (by decide)
  exact ⟨h.1, h.2.1, h.2.2.2.1, (h.2.2.2.2.2 rfl).1⟩

/-- The aligned size is at least the demand. -/
theorem alignedSize624_ge (d : Nat) : d ≤ alignedSize624 d := by
  have h := Nat.div_add_mod d 624
  unfold alignedSize624
  by_cases h0 : d % 624 = 0 <;> simp [h0] <;> omega

/-- The aligned size is a multiple of 624. -/
theorem alignedSize624_mod (d : Nat) : alignedSize624 d % 624 = 0 := by
  unfold alignedSize624
  exact Nat.mul_mod_right 624 _

/-- For demands between 1 and 624 the aligned size is exactly 624. -/
theorem alignedSize624_small (d : Nat) (h1 : 1 ≤ d) (h2 : d ≤ 624) : alignedSize624 d = 624 := by
  have h := Nat.div_add_mod d 624
  unfold alignedSize624
  by_cases h0 : d % 624 = 0 <;> simp [h0] <;> omega

/-- C2: a successful `updateVariatesPool` leaves the pool untouched when
it already covers the demand `nVariates_ * size_[currentId_ - 1]`, and
otherwise grows it to exactly the demand rounded up to the next multiple
of 624, so the pool always ends at least as large as the demand and (given
the maintained 624-alignment of the incoming pool) 624-aligned; growing
from an empty pool with a demand of at most 624 yields exactly 624. -/
theorem updateVariatesPool_aligned (ctx ctx' : OpenClContext)
    (h624 : ctx.variatesPoolSize_ % 624 = 0)
    (hok : updateVariatesPool ctx = (ctx', Except.ok ())) :
    (ctx.nVariates_ * ctx.size_.getD (ctx.currentId_ - 1) 0 ≤ ctx.variatesPoolSize_ → ctx' = ctx) ∧
    (ctx.variatesPoolSize_ < ctx.nVariates_ * ctx.size_.getD (ctx.currentId_ - 1) 0 →
      ctx'.variatesPoolSize_ = alignedSize624 (ctx.nVariates_ * ctx.size_.getD (ctx.currentId_ - 1) 0)) ∧
    ctx.nVariates_ * ctx.size_.getD (ctx.currentId_ - 1) 0 ≤ ctx'.variatesPoolSize_ ∧
    ctx'.variatesPoolSize_ % 624 = 0 ∧
    (ctx.variatesPoolSize_ = 0 → 1 ≤ ctx.nVariates_ * ctx.size_.getD (ctx.currentId_ - 1) 0 →
      ctx.nVariates_ * ctx.size_.getD (ctx.currentId_ - 1) 0 ≤ 624 →
      ctx'.variatesPoolSize_ = 624) := by
  simp only [updateVariatesPool] at hok
  by_cases hz : ctx.nVariates_ = 0
  · rw [if_pos hz] at hok
    simp at hok
  · rw [if_neg hz] at hok
    by_cases hcov : ctx.nVariates_ * ctx.size_.getD (ctx.currentId_ - 1) 0 ≤ ctx.variatesPoolSize_
    · rw [if_pos hcov] at hok
      injection hok with h1 h2
      subst h1
      refine ⟨fun _ => rfl, fun hlt => absurd hcov (by omega), hcov, h624, ?_⟩
      intro hp0 hd1 hd624
      omega
    · rw [if_neg hcov] at hok
      by_cases hfill :
          fillLoopEnd ctx.variatesPoolSize_ (ctx.nVariates_ * ctx.size_.getD (ctx.currentId_ - 1) 0) =
            alignedSize624 (ctx.nVariates_ * ctx.size_.getD (ctx.currentId_ - 1) 0)
      · rw [if_pos hfill] at hok
        injection hok with h1 h2
        subst h1
        refine ⟨fun hle => absurd hle hcov, fun _ => hfill, ?_, ?_, ?_⟩
        · calc ctx.nVariates_ * ctx.size_.getD (ctx.currentId_ - 1) 0 ≤
              alignedSize624 (ctx.nVariates_ * ctx.size_.getD (ctx.currentId_ - 1) 0) :=
                alignedSize624_ge _
            _ = fillLoopEnd ctx.variatesPoolSize_ (ctx.nVariates_ * ctx.size_.getD (ctx.currentId_ - 1) 0) :=
                hfill.symm
        · show fillLoopEnd _ _ % 624 = 0
          rw [hfill]
          exact alignedSize624_mod _
        · intro hp0 hd1 hd624
          show fillLoopEnd _ _ = 624
          rw [hfill]
          exact alignedSize624_small _ hd1 hd624
      · rw [if_neg hfill] at hok
        simp at hok

/-- C2 witness: growing the empty pool of `c2wctx` for a demand of
`1 * 5 = 5` samples yields a pool of exactly 624. -/
theorem updateVariatesPool_aligned_witness :
    ((updateVariatesPool c2wctx).1).variatesPoolSize_ = 624 ∧
    5 ≤ ((updateVariatesPool c2wctx).1).variatesPoolSize_ := by
  have h := updateVariatesPool_aligned c2wctx ((updateVariatesPool c2wctx).1)
    (by decide) (by decide)
  exact ⟨h.2.2.2.2 (by decide) (by decide) (by decide), h.2.2.1⟩

/-- The last element of a zip determines the last elements of both lists
(for lists of equal length). -/
theorem zip_getLast?_eq {α β : Type} (l1 : List α) (l2 : List β) (h : l1.length = l2.length)
    (p : α × β) (hz : (l1.zip l2).getLast? = some p) :
    l1.getLast? = some p.1 ∧ l2.getLast? = some p.2 := by
  induction l1 generalizing l2 with
  | nil => simp at hz
  | cons a t1 ih =>
    cases l2 with
    | nil => simp at hz
    | cons b t2 =>
      simp only [List.length_cons, Nat.add_right_cancel_iff] at h
      rcases t1 with _ | ⟨c, t1'⟩
      · cases t2 with
        | nil =>
          simp at hz
          subst hz
          exact ⟨rfl, rfl⟩
        | cons d t2' => simp at h
      · cases t2 with
        | nil => simp at h
        | cons d t2' =>
          have hzz : ((a :: c :: t1').zip (b :: d :: t2')) =
              (a, b) :: (c, d) :: (t1'.zip t2') := rfl
          rw [hzz, List.getLast?_cons_cons] at hz
          obtain ⟨h1, h2⟩ := ih (d :: t2') h hz
          refine ⟨?_, ?_⟩
          · rw [List.getLast?_cons_cons]
            exact h1
          · rw [List.getLast?_cons_cons]
            exact h2

/-- Appending a pair that satisfies the offset relation with the current
last pair preserves `offsetChainOk`. -/
theorem offsetChainOk_append (n : Nat) (l : List (Nat × Bool)) (x : Nat) (b : Bool)
    (hc : offsetChainOk n l = true)
    (hx : ∀ p : Nat × Bool, l.getLast? = some p → x = p.1 + (if p.2 then 1 else n)) :
    offsetChainOk n (l ++ [(x, b)]) = true := by
  induction l with
  | nil => rfl
  | cons p t ih =>
    obtain ⟨o1, s1⟩ := p
    cases t with
    | nil =>
      have hx' : x = o1 + (if s1 then 1 else n) := hx (o1, s1) (by simp)
      simp [offsetChainOk, hx']
    | cons q t' =>
      obtain ⟨o2, s2⟩ := q
      simp only [offsetChainOk, Bool.and_eq_true] at hc
      obtain ⟨hc1, hc2⟩ := hc
      have ih' := ih hc2 (fun p hp => hx p (by rw [List.getLast?_cons_cons]; exact hp))
      simp only [List.cons_append, offsetChainOk, Bool.and_eq_true]
      exact ⟨hc1, by simpa using ih'⟩

/-- Invariant of a run of `createInputVariable` calls starting in state
`createInput`: the state, batch size and current id are preserved, the
scalar flags accumulate in order, and the offsets keep satisfying
`offset[0] = 0` together with the chain relation
`offset[k+1] = offset[k] + (isScalar[k] ? 1 : n)`. -/
theorem runInputs_props (flags : List Bool) (c : OpenClContext)
    (hstate : c.currentState_ = ComputeState.createInput)
    (hlen : c.inputVarOffset_.length = c.inputVarIsScalar_.length)
    (hhead : c.inputVarOffset_.headD 0 = 0)
    (hchain : offsetChainOk (c.size_.getD (c.currentId_ - 1) 0)
        (c.inputVarOffset_.zip c.inputVarIsScalar_) = true) :
    (runInputs c flags).currentState_ = ComputeState.createInput ∧
    (runInputs c flags).size_ = c.size_ ∧
    (runInputs c flags).currentId_ = c.currentId_ ∧
    (runInputs c flags).inputVarOffset_.length = (runInputs c flags).inputVarIsScalar_.length ∧
    (runInputs c flags).inputVarIsScalar_ = c.inputVarIsScalar_ ++ flags ∧
    (runInputs c flags).inputVarOffset_.headD 0 = 0 ∧
    offsetChainOk (c.size_.getD (c.currentId_ - 1) 0)
      ((runInputs c flags).inputVarOffset_.zip (runInputs c flags).inputVarIsScalar_) = true := by
  induction flags generalizing c with
  | nil =>
    refine ⟨hstate, rfl, rfl, hlen, ?_, hhead, hchain⟩
    show c.inputVarIsScalar_ = c.inputVarIsScalar_ ++ []
    simp
  | cons b rest ih =>
    have hstep : (createInputVariable c b).1 =
        { c with
          inputVarOffset_ := c.inputVarOffset_ ++ [nextInputOffset c]
          inputVarIsScalar_ := c.inputVarIsScalar_ ++ [b]
          nVars_ := c.nVars_ + 1 } := by
      simp [createInputVariable, hstate]
    have hrun : runInputs c (b :: rest) = runInputs ((createInputVariable c b).1) rest := rfl
    have hlen1 : ((createInputVariable c b).1).inputVarOffset_.length =
        ((createInputVariable c b).1).inputVarIsScalar_.length := by
      rw [hstep]; simp [hlen]
    have hhead1 : ((createInputVariable c b).1).inputVarOffset_.headD 0 = 0 := by
      rw [hstep]
      rcases ho : c.inputVarOffset_ with _ | ⟨o, t⟩
      · simp [nextInputOffset, ho]
      · have : c.inputVarOffset_.headD 0 = 0 := hhead
        rw [ho] at this
        simpa using this
    have hchain1 : offsetChainOk (c.size_.getD (c.currentId_ - 1) 0)
        (((createInputVariable c b).1).inputVarOffset_.zip
          ((createInputVariable c b).1).inputVarIsScalar_) = true := by
      rw [hstep]
      show offsetChainOk _ ((c.inputVarOffset_ ++ [nextInputOffset c]).zip
        (c.inputVarIsScalar_ ++ [b])) = true
      rw [List.zip_append hlen]
      refine offsetChainOk_append _ _ _ _ hchain ?_
      intro p hp
      obtain ⟨hp1, hp2⟩ := zip_getLast?_eq _ _ hlen p hp
      have hne : ¬c.inputVarOffset_.isEmpty := by
        cases ho : c.inputVarOffset_
        · rw [ho] at hp1; simp at hp1
        · simp [ho]
      unfold nextInputOffset
      rw [if_neg hne, List.getLastD_eq_getLast?, List.getLastD_eq_getLast?, hp1, hp2]
      rfl
    have hsz2 : ((createInputVariable c b).1).size_ = c.size_ := by rw [hstep]
    have hcid2 : ((createInputVariable c b).1).currentId_ = c.currentId_ := by rw [hstep]
    have ih' := ih ((createInputVariable c b).1) (by rw [hstep]; exact hstate) hlen1 hhead1
      (by rw [hsz2, hcid2]; exact hchain1)
    rw [hrun]
    refine ⟨ih'.1, ?_, ?_, ih'.2.2.2.1, ?_, ih'.2.2.2.2.2.1, ?_⟩
    · rw [ih'.2.1, hsz2]
    · rw [ih'.2.2.1, hcid2]
    · rw [ih'.2.2.2.2.1, hstep]
      simp
    · have hfin := ih'.2.2.2.2.2.2
      rw [hsz2, hcid2] at hfin
      exact hfin

/-- C4: for every sequence of `createInputVariable` calls (scalar/vector
per flag) on a fresh input list, the stored descriptors satisfy
`offset[0] = 0` and `offset[k+1] = offset[k] + (isScalar[k] ? 1 : n)` with
`n = size_[currentId_ - 1]`, with one descriptor per call in order. -/
theorem createInputVariable_offsets (ctx : OpenClContext) (flags : List Bool)
    (hstate : ctx.currentState_ = ComputeState.createInput)
    (hoff : ctx.inputVarOffset_ = []) (hsc : ctx.inputVarIsScalar_ = []) :
    (runInputs ctx flags).inputVarOffset_.headD 0 = 0 ∧
    (runInputs ctx flags).inputVarIsScalar_ = flags ∧
    (runInputs ctx flags).inputVarOffset_.length = flags.length ∧
    offsetChainOk (ctx.size_.getD (ctx.currentId_ - 1) 0)
      ((runInputs ctx flags).inputVarOffset_.zip (runInputs ctx flags).inputVarIsScalar_) =
        true := by
  have h := runInputs_props flags ctx hstate (by rw [hoff, hsc]; rfl) (by rw [hoff]; rfl)
    (by rw [hoff]; rfl)
  refine ⟨h.2.2.2.2.2.1, ?_, ?_, h.2.2.2.2.2.2⟩
  · rw [h.2.2.2.2.1, hsc]; rfl
  · rw [h.2.2.2.1, h.2.2.2.2.1, hsc]; rfl

/-- C4 witness: three calls (scalar, vector, scalar) on `c1ctx` (batch
size 4) produce offsets `[0, 1, 5]` satisfying the chain relation. -/
theorem createInputVariable_offsets_witness :
    (runInputs c1ctx [true, false, true]).inputVarOffset_.headD 0 = 0 ∧
    (runInputs c1ctx [true, false, true]).inputVarIsScalar_ = [true, false, true] ∧
    (runInputs c1ctx [true, false, true]).inputVarOffset_ = [0, 1, 5] := by
  have h := createInputVariable_offsets c1ctx [true, false, true] rfl rfl rfl
  exact ⟨h.1, h.2.1, by decide⟩

/-- `getD` after `set` at the same in-bounds index. -/
theorem getD_set_self {α : Type} (l : List α) (i : Nat) (x d : α) (h : i < l.length) :
    (l.set i x).getD i d = x := by
  rw [List.getD_eq_getElem?_getD, List.getElem?_set_self h]
  rfl

/-- `getD` after `set` at a different index. -/
theorem getD_set_ne {α : Type} (l : List α) (i k : Nat) (x d : α) (h : i ≠ k) :
    (l.set i x).getD k d = l.getD k d := by
  rw [List.getD_eq_getElem?_getD, List.getElem?_set_ne h, ← List.getD_eq_getElem?_getD]

/-- `getD` of a `replicate` at an in-bounds index. -/
theorem getD_replicate {α : Type} (n i : Nat) (x d : α) (h : i < n) :
    (List.replicate n x).getD i d = x := by
  rw [List.getD_eq_getElem?_getD, List.getElem?_replicate_of_lt h]
  rfl

/-- Effect of one inner-loop column pass (`variateColumn`) on the counter,
the matrix shape and the entries: the counter advances by `dim`, column `j`
of the first `dim` rows receives consecutive ids, and all other entries
are untouched. -/
theorem variateColumn_spec (j : Nat) : ∀ (dim : Nat) (m : List (List Nat)) (c : Nat),
    (variateColumn dim j (m, c)).2 = c + dim ∧
    (variateColumn dim j (m, c)).1.length = m.length ∧
    (∀ i', ((variateColumn dim j (m, c)).1.getD i' []).length = (m.getD i' []).length) ∧
    (∀ i', i' < dim → i' < m.length → j < (m.getD i' []).length →
      getMatrix (variateColumn dim j (m, c)).1 i' j = c + i') ∧
    (∀ i' j', ¬(i' < dim ∧ j' = j) →
      getMatrix (variateColumn dim j (m, c)).1 i' j' = getMatrix m i' j') := by
  intro dim
  induction dim with
  | zero =>
    intro m c
    refine ⟨rfl, rfl, fun _ => rfl, fun i' hi' => absurd hi' (by omega), fun _ _ _ => rfl⟩
  | succ d ih =>
    intro m c
    have hstep : variateColumn (d + 1) j (m, c) =
        variateStep j (variateColumn d j (m, c)) d := by
      unfold variateColumn
      rw [List.range_succ, List.foldl_append]
      rfl
    obtain ⟨ihc, ihlen, ihrow, ihnew, ihold⟩ := ih m c
    have hm'len : (variateColumn d j (m, c)).1.length = m.length := ihlen
    by_cases hd : d < m.length
    · have hdlt : d < (variateColumn d j (m, c)).1.length := by omega
      have hrowd : ((variateColumn d j (m, c)).1.getD d []).length = (m.getD d []).length :=
        ihrow d
      refine ⟨?_, ?_, ?_, ?_, ?_⟩
      · rw [hstep]; show (variateColumn d j (m, c)).2 + 1 = c + (d + 1); omega
      · rw [hstep]
        show (setMatrix (variateColumn d j (m, c)).1 d j (variateColumn d j (m, c)).2).length =
          m.length
        unfold setMatrix
        rw [List.length_set]
        exact ihlen
      · intro i'
        rw [hstep]
        show ((setMatrix (variateColumn d j (m, c)).1 d j
          (variateColumn d j (m, c)).2).getD i' []).length = (m.getD i' []).length
        unfold setMatrix
        by_cases hi : d = i'
        · subst hi
          rw [getD_set_self _ _ _ _ hdlt, List.length_set]
          exact ihrow d
        · rw [getD_set_ne _ _ _ _ _ hi]
          exact ihrow i'
      · intro i' hi1 hi2 hj
        rw [hstep]
        show getMatrix (setMatrix (variateColumn d j (m, c)).1 d j
          (variateColumn d j (m, c)).2) i' j = c + i'
        unfold setMatrix getMatrix
        by_cases hi : d = i'
        · subst hi
          rw [getD_set_self _ _ _ _ hdlt, getD_set_self _ _ _ _ (by rw [hrowd]; exact hj), ihc]
        · rw [getD_set_ne _ _ _ _ _ hi]
          exact ihnew i' (by omega) hi2 hj
      · intro i' j' hnot
        rw [hstep]
        show getMatrix (setMatrix (variateColumn d j (m, c)).1 d j
          (variateColumn d j (m, c)).2) i' j' = getMatrix m i' j'
        unfold setMatrix getMatrix
        by_cases hi : d = i'
        · subst hi
          have hjne : j' ≠ j := by
            intro hjj
            exact hnot ⟨by omega, hjj⟩
          rw [getD_set_self _ _ _ _ hdlt, getD_set_ne _ _ _ _ _ (fun hh => hjne hh.symm)]
          exact ihold d j' (by omega)
        · rw [getD_set_ne _ _ _ _ _ hi]
          exact ihold i' j' (fun hh => hnot ⟨by omega, hh.2⟩)
    · have hnoop : setMatrix (variateColumn d j (m, c)).1 d j (variateColumn d j (m, c)).2 =
          (variateColumn d j (m, c)).1 := by
        unfold setMatrix
        exact List.set_eq_of_length_le (by omega)
      refine ⟨?_, ?_, ?_, ?_, ?_⟩
      · rw [hstep]; show (variateColumn d j (m, c)).2 + 1 = c + (d + 1); omega
      · rw [hstep]
        show (setMatrix (variateColumn d j (m, c)).1 d j (variateColumn d j (m, c)).2).length =
          m.length
        rw [hnoop]; exact ihlen
      · intro i'
        rw [hstep]
        show ((setMatrix (variateColumn d j (m, c)).1 d j
          (variateColumn d j (m, c)).2).getD i' []).length = (m.getD i' []).length
        rw [hnoop]; exact ihrow i'
      · intro i' hi1 hi2 hj
        rw [hstep]
        show getMatrix (setMatrix (variateColumn d j (m, c)).1 d j
          (variateColumn d j (m, c)).2) i' j = c + i'
        rw [hnoop]
        exact ihnew i' (by omega) hi2 hj
      · intro i' j' hnot
        rw [hstep]
        show getMatrix (setMatrix (variateColumn d j (m, c)).1 d j
          (variateColumn d j (m, c)).2) i' j' = getMatrix m i' j'
        rw [hnoop]
        exact ihold i' j' (fun hh => hnot ⟨by omega, hh.2⟩)

/-- Effect of the first `s` outer-loop iterations of `createInputVariates`
on the id matrix: after columns `0..s-1` are filled, the counter is
`v + s * dim`, the matrix shape is `dim × steps`, and entry `(i, j)` holds
`v + j * dim + i` for every filled column `j < s`. -/
theorem fillColumns_spec (dim steps v : Nat) : ∀ s : Nat, s ≤ steps →
    ((List.range s).foldl (fun acc j => variateColumn dim j acc) (initMatrix dim steps, v)).2 =
      v + s * dim ∧
    ((List.range s).foldl (fun acc j => variateColumn dim j acc)
      (initMatrix dim steps, v)).1.length = dim ∧
    (∀ i', i' < dim →
      (((List.range s).foldl (fun acc j => variateColumn dim j acc)
        (initMatrix dim steps, v)).1.getD i' []).length = steps) ∧
    (∀ i, i < dim → ∀ j, j < s →
      getMatrix ((List.range s).foldl (fun acc j => variateColumn dim j acc)
        (initMatrix dim steps, v)).1 i j = v + j * dim + i) := by
  intro s
  induction s with
  | zero =>
    intro _
    refine ⟨by simp, by simp [initMatrix], ?_, fun i hi j hj => absurd hj (by omega)⟩
    intro i' hi'
    show ((initMatrix dim steps).getD i' []).length = steps
    unfold initMatrix
    rw [getD_replicate _ _ _ _ hi']
    simp
  | succ s ih =>
    intro hs1
    have hs : s ≤ steps := by omega
    obtain ⟨ihc, ihlen, ihrow, ihent⟩ := ih hs
    set rs := (List.range s).foldl (fun acc j => variateColumn dim j acc)
      (initMatrix dim steps, v) with hrs
    have hstep : (List.range (s + 1)).foldl (fun acc j => variateColumn dim j acc)
        (initMatrix dim steps, v) = variateColumn dim s rs := by
      rw [hrs, List.range_succ, List.foldl_append]
      rfl
    have spec := variateColumn_spec s dim rs.1 rs.2
    simp only [Prod.mk.eta] at spec
    obtain ⟨sc, slen, srow, snew, sold⟩ := spec
    refine ⟨?_, ?_, ?_, ?_⟩
    · rw [hstep, sc, ihc, Nat.succ_mul]
      omega
    · rw [hstep, slen, ihlen]
    · intro i' hi'
      rw [hstep, srow i']
      exact ihrow i' hi'
    · intro i hi j hj
      rw [hstep]
      by_cases hjs : j = s
      · subst hjs
        rw [snew i hi (by omega) (by rw [ihrow i hi]; omega), ihc]
      · rw [sold i j (fun hh => hjs hh.2)]
        exact ihent i hi j (by omega)

/-- The id-assignment loops of `createInputVariates` fill the `dim × steps`
matrix in step-major order: entry `(i, j)` receives `v + j * dim + i` and
the counter ends at `v + steps * dim`. -/
theorem fillVariateIds_spec (dim steps v : Nat) :
    (fillVariateIds dim steps v).2 = v + steps * dim ∧
    (fillVariateIds dim steps v).1.length = dim ∧
    (∀ i, i < dim → ((fillVariateIds dim steps v).1.getD i []).length = steps) ∧
    (∀ i, i < dim → ∀ j, j < steps →
      getMatrix (fillVariateIds dim steps v).1 i j = v + j * dim + i) := by
  exact fillColumns_spec dim steps v steps (Nat.le_refl steps)

/-- `updateVariatesPool` touches only `variatesPoolSize_`: every other
field, in particular the variable and variate counters, is preserved on
both the success and the error path. -/
theorem updateVariatesPool_preserves (ctx ctx' : OpenClContext) (r : Except Err Unit)
    (h : updateVariatesPool ctx = (ctx', r)) :
    ctx'.nVars_ = ctx.nVars_ ∧ ctx'.nVariates_ = ctx.nVariates_ ∧
    ctx'.currentState_ = ctx.currentState_ := by
  simp only [updateVariatesPool] at h
  split at h
  · injection h with h1 h2
    subst h1
    exact ⟨rfl, rfl, rfl⟩
  · split at h
    · injection h with h1 h2
      subst h1
      exact ⟨rfl, rfl, rfl⟩
    · split at h
      · injection h with h1 h2
        subst h1
        exact ⟨rfl, rfl, rfl⟩
      · injection h with h1 h2
        subst h1
        exact ⟨rfl, rfl, rfl⟩

/-- C10: a successful `createInputVariates(dim, steps)` assigns the
returned ids in step-major order — with `v` the variable counter before
the call, `resultIds[i][j] = v + j * dim + i` — and advances the variable
counter to `v + dim * steps` while increasing `nVariates_` by exactly
`dim * steps`. -/
theorem createInputVariates_ids (ctx ctx' : OpenClContext) (dim steps : Nat)
    (ids : List (List Nat))
    (h : createInputVariates ctx dim steps = (ctx', Except.ok ids)) :
    (∀ i, i < dim → ∀ j, j < steps → getMatrix ids i j = ctx.nVars_ + j * dim + i) ∧
    ctx'.nVars_ = ctx.nVars_ + dim * steps ∧
    ctx'.nVariates_ = ctx.nVariates_ + dim * steps := by
  by_cases hst : ctx.currentState_ = ComputeState.createInput ∨
      ctx.currentState_ = ComputeState.createVariates
  · by_cases hid : ctx.currentId_ = 0
    · simp [createInputVariates, hst, hid] at h
    · by_cases hk : ctx.hasKernel_[ctx.currentId_ - 1]?.getD false = true
      · simp [createInputVariates, hst, hid, hk] at h
      · simp only [createInputVariates] at h
        rw [if_pos hst] at h
        rw [if_neg hid] at h
        rw [if_neg (by simpa using hk)] at h
        split at h
        · rename_i c u heq
          injection h with h1 h2
          injection h2 with h3
          have hpres := updateVariatesPool_preserves _ _ _ heq
          simp only [OpenClContext.mk.injEq] at hpres
          have hfill := fillVariateIds_spec dim steps ctx.nVars_
          refine ⟨?_, ?_, ?_⟩
          · intro i hi j hj
            rw [← h3]
            exact hfill.2.2.2 i hi j hj
          · rw [← h1, hpres.1]
            show (fillVariateIds dim steps ctx.nVars_).2 = ctx.nVars_ + dim * steps
            rw [hfill.1, Nat.mul_comm]
          · rw [← h1, hpres.2.1]
        · rename_i c e heq
          simp at h
  · simp [createInputVariates, hst] at h

/-- C10 witness: on `c10ctx` (batch size 1, counter 0) the call with
`dim = 2`, `steps = 3` returns the step-major matrix `[[0,2,4],[1,3,5]]`
and advances the counters by 6. -/
theorem createInputVariates_ids_witness :
    ((createInputVariates c10ctx 2 3).1).nVars_ = 6 ∧
    ((createInputVariates c10ctx 2 3).1).nVariates_ = 6 ∧
    getMatrix [[0, 2, 4], [1, 3, 5]] 1 2 = 0 + 2 * 2 + 1 := by
  have h := createInputVariates_ids c10ctx ((createInputVariates c10ctx 2 3).1) 2 3
    [[0, 2, 4], [1, 3, 5]] (by decide)
  exact ⟨h.2.1, h.2.2, h.1 1 (by decide) 2 (by decide)⟩

/-- Argument resolution ignores the state-machine field: `rhsString` (via
`argString`) reads only the input descriptors, the variate counter, the
batch size and the current id, so updating `currentState_` does not change
the generated right-hand side. -/
theorem rhsString_set_state (c : OpenClContext) (s : ComputeState) (op : OpCode)
    (args : List Nat) :
    rhsString { c with currentState_ := s } op args = rhsString c op args := by
  cases op <;> rfl

/-- The generated SSA line likewise does not depend on the state-machine
field of the context it is built from. -/
theorem ssaLineFor_set_state (c : OpenClContext) (s : ComputeState) (d : Bool) (r : Nat)
    (op : OpCode) (args : List Nat) :
    ssaLineFor { c with currentState_ := s } d r op args = ssaLineFor c d r op args := by
  unfold ssaLineFor
  rw [rhsString_set_state]

/-- C1 counterexample: for the supported opcode `None` the emitted line is
`"  float v0 = \n"` — the switch case for `None` appends neither an
expression nor the terminating semicolon, so the appended line is not of
the claimed form `[<T> ]v<resultId> = <rhs>;`: the character before the
trailing newline is a space, not the semicolon the claimed form ends
with (`"  float v0 = ;\n"` would be the line for an empty rhs). -/
theorem applyOperation_none_no_semicolon :
    (applyOperation c1ctx OpCode.None []).2 = Except.ok 0 ∧
    ((applyOperation c1ctx OpCode.None []).1).currentSsa_ = "  float v0 = \n" ∧
    "  float v0 = \n" ≠ "  float v0 = ;\n" ∧
    ("  float v0 = \n").data.dropLast.getLast? = some ' ' := by
  decide

/-- C1 amended: for every call to `applyOperation` with a supported opcode
other than `None`, in a non-idle state with a current id set and no cached
kernel: if the free list is non-empty the returned id is its last element,
which is removed, and the emitted line carries no type prefix; otherwise
the returned id is the previous `nVars_`, which is incremented, and the
line carries the `float`/`double` prefix per settings.  Exactly the one
line `"  [<T> ]v<resultId> = <rhs>;\n"` is appended to the SSA text, where
`<rhs>` is the opcode's expression (always semicolon-terminated) over the
argument resolution of `argString`: `input[<offset>U]` for a scalar input,
`input[<offset>U + i]` for a vector input, `rn[<(id-nInputs)*n>U + i]` for
a variate and `v<id>` for an intermediate. -/
theorem applyOperation_ssa (ctx : OpenClContext) (op : OpCode) (args : List Nat)
    (hstate : ctx.currentState_ = ComputeState.createInput ∨
      ctx.currentState_ = ComputeState.createVariates ∨
      ctx.currentState_ = ComputeState.calc)
    (hid : ctx.currentId_ ≠ 0)
    (hk : ctx.hasKernel_.getD (ctx.currentId_ - 1) false = false)
    (hop : op ≠ OpCode.None) :
    (∃ body : String, rhsString ctx op args = body ++ ";") ∧
    (ctx.freedVariables_.getLast? = none →
      (applyOperation ctx op args).2 = Except.ok ctx.nVars_ ∧
      ((applyOperation ctx op args).1).nVars_ = ctx.nVars_ + 1 ∧
      ((applyOperation ctx op args).1).freedVariables_ = ctx.freedVariables_ ∧
      ((applyOperation ctx op args).1).currentState_ = ComputeState.calc ∧
      ((applyOperation ctx op args).1).currentSsa_ =
        ctx.currentSsa_ ++ "  " ++ ssaLineFor ctx true ctx.nVars_ op args ++ "\n") ∧
    (∀ x : Nat, ctx.freedVariables_.getLast? = some x →
      (applyOperation ctx op args).2 = Except.ok x ∧
      ((applyOperation ctx op args).1).nVars_ = ctx.nVars_ ∧
      ((applyOperation ctx op args).1).freedVariables_ = ctx.freedVariables_.dropLast ∧
      ((applyOperation ctx op args).1).currentState_ = ComputeState.calc ∧
      ((applyOperation ctx op args).1).currentSsa_ =
        ctx.currentSsa_ ++ "  " ++ ssaLineFor ctx false x op args ++ "\n") ∧
    (∀ a : Nat, a < ctx.inputVarOffset_.length → ctx.inputVarIsScalar_.getD a true = true →
      argString ctx a = "input[" ++ toString (ctx.inputVarOffset_.getD a 0) ++ "U" ++ "]") ∧
    (∀ a : Nat, a < ctx.inputVarOffset_.length → ctx.inputVarIsScalar_.getD a true = false →
      argString ctx a = "input[" ++ toString (ctx.inputVarOffset_.getD a 0) ++ "U" ++ " + i]") ∧
    (∀ a : Nat, ctx.inputVarOffset_.length ≤ a →
      a < ctx.inputVarOffset_.length + ctx.nVariates_ →
      argString ctx a = "rn[" ++ toString ((a - ctx.inputVarOffset_.length) *
        ctx.size_.getD (ctx.currentId_ - 1) 0) ++ "U + i]") ∧
    (∀ a : Nat, ctx.inputVarOffset_.length + ctx.nVariates_ ≤ a →
      argString ctx a = "v" ++ toString a) := by
  have hk' : ctx.hasKernel_[ctx.currentId_ - 1]?.getD false = false := by
    simpa using hk
  have happend : ∀ s : String, s ++ ");" = (s ++ ")") ++ ";" := by
    intro s
    rw [String.append_assoc]
    simp
  refine ⟨?_, ?_, ?_, ?_, ?_, ?_, ?_⟩
  · cases op <;> first
      | exact absurd rfl hop
      | (simp only [rhsString]; exact ⟨_, rfl⟩)
      | (simp only [rhsString]; exact ⟨_, happend _⟩)
  · intro hnone
    rcases hstate with h1 | h1 | h1 <;>
      refine ⟨?_, ?_, ?_, ?_, ?_⟩ <;>
      simp [applyOperation, h1, hid, hk', hnone, ssaLineFor_set_state,
        String.append_assoc, apply_ite]
  · intro x hsome
    rcases hstate with h1 | h1 | h1 <;>
      refine ⟨?_, ?_, ?_, ?_, ?_⟩ <;>
      simp [applyOperation, h1, hid, hk', hsome, ssaLineFor_set_state,
        String.append_assoc, apply_ite]
  · intro a ha hs
    unfold argString
    rw [if_pos ha]
    rw [hs]
    rfl
  · intro a ha hs
    unfold argString
    rw [if_pos ha]
    rw [hs]
    rfl
  · intro a ha1 ha2
    unfold argString
    rw [if_neg (by omega), if_pos ha2]
  · intro a ha
    unfold argString
    rw [if_neg (by omega), if_neg (by omega)]

/-- C1 witness: on `c1wctx` (scalar input 0 at offset 0, vector input 1,
variate id 2, `nVars_ = 4`, empty free list, single precision), applying
`Add` to ids `[0, 2]` returns the fresh id 4 and appends exactly the line
`"  float v4 = input[0U] + rn[0U + i];\n"`. -/
theorem applyOperation_ssa_witness :
    (applyOperation c1wctx OpCode.Add [0, 2]).2 = Except.ok 4 ∧
    ((applyOperation c1wctx OpCode.Add [0, 2]).1).currentSsa_ =
      "  float v4 = input[0U] + rn[0U + i];\n" ∧
    ((applyOperation c1wctx OpCode.Add [0, 2]).1).nVars_ = 5 := by
  have h := applyOperation_ssa c1wctx OpCode.Add [0, 2] (Or.inl rfl) (by decide) (by decide)
    (by decide)
  obtain ⟨-, hfresh, -⟩ := h
  have hf := hfresh rfl
  refine ⟨hf.1, ?_, hf.2.1⟩
  rw [hf.2.2.2.2]
  decide
